import Mathlib

/-!
Verification of the business-name generator pipeline.

Shallow embedding of the two deployment variants of the name generator
(`src/app_API.py`, the sequential FastAPI variant, and `src/app.py`, the
parallel Streamlit variant) and proofs about the claims of the spec.

All Python strings are modelled as `List Char` (written `Str` below) so that
every operation is computable and kernel-reducible.  The two external
collaborators (the OpenAI completion client and the Pinecone vector store)
are modelled as inputs: a completion call outcome is an `Except Unit Str`
(error or raw text), an index handle is an `Option` (Python `None` for an
unavailable index) and a query outcome is an `Except Unit` of the returned
match list (error models a raised exception of the remote call).
-/

/-- Python strings, modelled as character lists. -/
abbrev Str := List Char

/-- Python `str.strip()` / `\s` whitespace class (ASCII): space, tab,
    newline, carriage return, form feed, vertical tab. -/
def pySpace (c : Char) : Bool :=
  c = ' ' || c = '\t' || c = '\n' || c = '\r' || c = '\x0c' || c = '\x0b'

/-- Python `str.strip()`: drop leading and trailing whitespace. -/
def pyStrip (l : Str) : Str :=
  ((l.dropWhile pySpace).reverse.dropWhile pySpace).reverse

/-- Python `str.lower()` (ASCII case folding, as in `Char.toLower`). -/
def pyLower (l : Str) : Str := l.map Char.toLower

/-- Holds when `l` starts with the prefix `p`. -/
def hasPrefixChars : Str → Str → Bool
  | [], _ => true
  | _ :: _, [] => false
  | a :: as, b :: bs => a = b && hasPrefixChars as bs

/-- Python `needle in hay` (substring containment). -/
def hasSubstr (needle : Str) : Str → Bool
  | [] => hasPrefixChars needle []
  | c :: rest => hasPrefixChars needle (c :: rest) || hasSubstr needle rest

/-- Python `s.split(sep)[0]` for a non-empty separator: the prefix of `s`
    before the first occurrence of `sep` (all of `s` when `sep` is absent). -/
def beforeSeq (sep : Str) : Str → Str
  | [] => []
  | c :: rest => if hasPrefixChars sep (c :: rest) then [] else c :: beforeSeq sep rest

/-! ## Name Existence Checker (`NameValidator` in both variants) -/

/-- One match returned by a trademark-index query; only the optional
    `wordMark` metadata field is inspected by the code. -/
structure TMMatch where
  wordMark : Option Str
deriving DecidableEq, Repr

/-- The primary-index handle as seen by `_check_primary_index`: `none` models
    the Python handle being `None`; otherwise, for each queried name the
    remote metadata-filtered query (`original_data == name`) either raises
    (`.error`) or returns the match list (modelled by its entries' presence
    only — the code tests the returned match count). -/
abbrev PrimaryIdx := Option (Str → Except Unit (List Unit))

/-- The trademark-index handle as seen by `_check_trademark_index`:
    `none` for `None`; otherwise the outcome of the single unfiltered
    `top_k=10` query, which does not depend on the candidate name. -/
abbrev TrademarkIdx := Option (Except Unit (List TMMatch))

/-- Embedding of `NameValidator._check_primary_index` (src/app_API.py:79-103,
    src/app.py:76-101): `False` if the handle is `None`, `False` if the query
    raises, else whether the returned match list is non-empty. -/
def check_primary_index (primary_index : PrimaryIdx) (name : Str) : Bool :=
  match primary_index with
  | none => false
  | some query =>
    match query name with
    | .error _ => false
    | .ok ms => decide (0 < ms.length)

/-- Computation of `main_name = name.split('-')[0].strip()` (src/app_API.py:115). -/
def mainNameOf (name : Str) : Str := pyStrip (beforeSeq ['-'] name)

/-- The main part of a stored word-mark (src/app_API.py:130-133):
    `trademark.split(' - ')[0].strip()` when `' - '` occurs in it,
    otherwise the whole field (not stripped). -/
def trademarkMainOf (trademark : Str) : Str :=
  if hasSubstr (' ' :: '-' :: ' ' :: []) trademark then
    pyStrip (beforeSeq (' ' :: '-' :: ' ' :: []) trademark)
  else trademark

/-- The per-match collision test of the trademark loop
    (src/app_API.py:125-138): the match carries a `wordMark` field and,
    case-insensitively, the candidate's main name is a substring of the
    word-mark's main part or vice versa. -/
def tmMatchHit (main_name : Str) (m : TMMatch) : Bool :=
  match m.wordMark with
  | none => false
  | some trademark =>
    hasSubstr (pyLower main_name) (pyLower (trademarkMainOf trademark)) ||
      hasSubstr (pyLower (trademarkMainOf trademark)) (pyLower main_name)

/-- Embedding of `NameValidator._check_trademark_index` (src/app_API.py:106-144,
    src/app.py:104-144): `False` if the handle is `None` or the query raises;
    otherwise `True` iff some returned match passes the collision test. -/
def check_trademark_index (trademark_index : TrademarkIdx) (name : Str) : Bool :=
  match trademark_index with
  | none => false
  | some (.error _) => false
  | some (.ok ms) => ms.any (tmMatchHit (mainNameOf name))

/-- Embedding of `NameValidator.name_exists_in_database` of the sequential variant
    (src/app_API.py:57-76): check the primary index, then the trademark
    index, returning at the first hit. -/
def name_exists_in_database (p : PrimaryIdx) (t : TrademarkIdx) (name : Str) : Bool :=
  if check_primary_index p name then true
  else if check_trademark_index t name then true
  else false

/-- Embedding of `NameValidator.name_exists_in_database` of the parallel variant
    (src/app.py:57-73): the two checks are fanned out and the results
    combined with `or`. -/
def name_exists_in_database_app (p : PrimaryIdx) (t : TrademarkIdx) (name : Str) : Bool :=
  check_primary_index p name || check_trademark_index t name

/-! ## Suggestion Parser: the regex fallback of `generate_business_names`

The fallback (src/app_API.py:186-198, src/app.py:186-198) runs
`re.findall` with `re.MULTILINE` for the two patterns

  name:        `(?:"name":|^\d+\.)\s*"([^"]+)"`
  description: `(?:"description":|explanation:)\s*"([^"]+)"`

and then pairs the i-th name with the i-th description for
`i < min(len(names), len(descriptions))`.  The scanner below implements
`re.findall`'s semantics for these two patterns: positions are tried left to
right, alternatives in order, and each quantifier (`\d+`, `\s*`, `[^"]+`) is
greedy; since no character matched by any of these quantifiers can also match
the token that follows it, maximal munch needs no backtracking and the
deterministic functions below are faithful.  `^` under `re.MULTILINE` matches
at the start of the text and just after each newline. -/

/-- Match a literal at the current position, returning the rest. -/
def matchLit (lit l : Str) : Option Str :=
  if hasPrefixChars lit l then some (l.drop lit.length) else none

/-- Match `\s*"([^"]+)"`, returning the capture and the rest. -/
def matchQuoted (l : Str) : Option (Str × Str) :=
  match l.dropWhile pySpace with
  | '"' :: rest =>
    let cap := rest.takeWhile (· ≠ '"')
    match rest.dropWhile (· ≠ '"') with
    | '"' :: rest' => if cap.isEmpty then none else some (cap, rest')
    | _ => none
  | _ => none

/-- Match `\d+\.`, returning the rest. -/
def matchNumDot (l : Str) : Option Str :=
  if (l.takeWhile Char.isDigit).isEmpty then none
  else
    match l.dropWhile Char.isDigit with
    | '.' :: rest => some rest
    | _ => none

/-- One attempted match of the name pattern at the current position;
    `atStart` tells whether `^` matches here (`re.MULTILINE`). -/
def matchNameAt (atStart : Bool) (l : Str) : Option (Str × Str) :=
  (match matchLit ("\"name\":").data l with
   | some rest => matchQuoted rest
   | none => none) <|>
  (if atStart then
    match matchNumDot l with
    | some rest => matchQuoted rest
    | none => none
  else none)

/-- One attempted match of the description pattern at the current position. -/
def matchDescAt (l : Str) : Option (Str × Str) :=
  (match matchLit ("\"description\":").data l with
   | some rest => matchQuoted rest
   | none => none) <|>
  (match matchLit ("explanation:").data l with
   | some rest => matchQuoted rest
   | none => none)

/-- Embedding of `re.findall` for the name pattern.  Every successful match ends at a
    closing quote, so the resumed position is never at a line start; every
    step consumes at least one character, so fuel equal to the text length
    makes the scan complete. -/
def scanNames : Nat → Bool → Str → List Str
  | 0, _, _ => []
  | _ + 1, _, [] => []
  | fuel + 1, atStart, c :: rest =>
    match matchNameAt atStart (c :: rest) with
    | some (cap, rest') => cap :: scanNames fuel false rest'
    | none => scanNames fuel (c = '\n') rest

/-- Embedding of `re.findall` for the description pattern (no `^` anchor involved). -/
def scanDescs : Nat → Str → List Str
  | 0, _ => []
  | _ + 1, [] => []
  | fuel + 1, c :: rest =>
    match matchDescAt (c :: rest) with
    | some (cap, rest') => cap :: scanDescs fuel rest'
    | none => scanDescs fuel rest

/-- Computation of `names = re.findall(name_pattern, suggestions_text, re.MULTILINE)`. -/
def extractNames (text : Str) : List Str := scanNames text.length true text

/-- Computation of `descriptions = re.findall(desc_pattern, suggestions_text, re.MULTILINE)`. -/
def extractDescs (text : Str) : List Str := scanDescs text.length text

/-- The pairing loop `for i in range(min(len(names), len(descriptions)))`
    (src/app_API.py:193-198). -/
def pairUp (names descs : List Str) : List (Str × Str) :=
  (List.range (min names.length descs.length)).map fun i =>
    (names.getD i [], descs.getD i [])

/-- The whole fallback parse: extract, then pair index-wise. -/
def fallbackParse (text : Str) : List (Str × Str) :=
  pairUp (extractNames text) (extractDescs text)

/-! ## The parsed suggestion batch -/

/-- An element of the sequence produced by `json.loads`: a JSON object
    (with its string fields) or anything that is not an object. -/
inductive RawSuggestion where
  | obj (fields : List (Str × Str)) : RawSuggestion
  | nonObj : RawSuggestion
deriving DecidableEq, Repr

/-- Python dict lookup on the modelled object fields. -/
def fieldLookup (key : Str) : List (Str × Str) → Option Str
  | [] => none
  | (k, v) :: rest => if k = key then some v else fieldLookup key rest

/-- Evaluation of `suggestion["name"]`: raises (`.error`) with a `KeyError` when the key
    is absent or a `TypeError` when the element is not an object. -/
def sugName : RawSuggestion → Except Unit Str
  | .obj fields =>
    match fieldLookup ("name").data fields with
    | some v => .ok v
    | none => .error ()
  | .nonObj => .error ()

/-- The dicts `{"name": names[i], "description": descriptions[i]}` built by
    the fallback branch. -/
def fallbackSuggestions (text : Str) : List RawSuggestion :=
  (fallbackParse text).map fun p =>
    .obj [(("name").data, p.1), (("description").data, p.2)]

/-- Outcome of `json.loads(suggestions_text)` with the fallback on `JSONDecodeError`
    (src/app_API.py:183-198).  The `jsonLoads` outcome is an input: the JSON
    grammar itself is not embedded. -/
def parsedSuggestions (text : Str)
    (jsonLoads : Str → Except Unit (List RawSuggestion)) : List RawSuggestion :=
  match jsonLoads text with
  | .ok s => s
  | .error _ => fallbackSuggestions text

/-! ## Name Generation Pipeline -/

/-- The filtering loop of the sequential variant (src/app_API.py:200-214).
    The accumulator keeps each accepted dict together with the name it was
    accepted under (the loop reads `s["name"]` back from the accepted dicts
    for its duplicate test).  `.error` models the loop raising. -/
def validateLoopAPI (dbExists : Str → Bool)
    (acc : List (Str × RawSuggestion)) :
    List RawSuggestion → Except Unit (List (Str × RawSuggestion))
  | [] => .ok acc
  | s :: rest =>
    match sugName s with
    | .error e => .error e
    | .ok name =>
      if name ∈ acc.map Prod.fst then validateLoopAPI dbExists acc rest
      else if dbExists name then validateLoopAPI dbExists acc rest
      else if (acc ++ [(name, s)]).length = 12 then .ok (acc ++ [(name, s)])
      else validateLoopAPI dbExists (acc ++ [(name, s)]) rest

/-- Embedding of `BusinessNameGenerator.generate_business_names` of the sequential
    variant (src/app_API.py:148-217).  A completion-call failure, or any
    exception raised while filtering, is caught by the outermost handler
    which returns `[]`. -/
def generate_business_names_API (completion : Except Unit Str)
    (jsonLoads : Str → Except Unit (List RawSuggestion))
    (dbExists : Str → Bool) : List RawSuggestion :=
  match completion with
  | .error _ => []
  | .ok text =>
    match validateLoopAPI dbExists [] (parsedSuggestions text jsonLoads) with
    | .ok acc => acc.map Prod.snd
    | .error _ => []

/-- Embedding of `validate_name` of the parallel variant (src/app.py:203-208): `some s`
    when the name is not found in the database, `none` when it is,
    `.error` when `s["name"]` raises. -/
def validate_name (dbExists : Str → Bool) (s : RawSuggestion) :
    Except Unit (Option RawSuggestion) :=
  match sugName s with
  | .error e => .error e
  | .ok name => .ok (if dbExists name then none else some s)

/-- Embedding of `list(executor.map(validate_name, suggestions))` (src/app.py:211-212):
    collect every worker's result in order; the first raised exception
    propagates when its result is collected. -/
def collectResults (dbExists : Str → Bool) :
    List RawSuggestion → Except Unit (List (Option RawSuggestion))
  | [] => .ok []
  | s :: rest =>
    match validate_name dbExists s with
    | .error e => .error e
    | .ok r =>
      match collectResults dbExists rest with
      | .error e => .error e
      | .ok rs => .ok (r :: rs)

/-- Embedding of `BusinessNameGenerator.generate_business_names` of the parallel variant
    (src/app.py:148-225): validate every candidate (collecting the results
    re-raises the first worker exception, caught by the outermost handler),
    drop the `None`s, truncate to 12. -/
def generate_business_names_app (completion : Except Unit Str)
    (jsonLoads : Str → Except Unit (List RawSuggestion))
    (dbExists : Str → Bool) : List RawSuggestion :=
  match completion with
  | .error _ => []
  | .ok text =>
    match collectResults dbExists (parsedSuggestions text jsonLoads) with
    | .error _ => []
    | .ok results => (results.filterMap id).take 12

/-! ## HTTP surface of the sequential variant -/

structure HttpReply where
  status : Nat
  suggestions : List RawSuggestion
deriving DecidableEq, Repr

/-- The `POST /generate-names` handler (src/app_API.py:229-243), paired with
    the number of completion-client invocations it performs.  Python's
    `if not request.description` is the emptiness test on the string; when
    the handler does call `generate_business_names`, the completion client
    is invoked exactly once (the `create` call is unconditionally the first
    statement of its `try` block). -/
def generate_names (description : Str) (completion : Except Unit Str)
    (jsonLoads : Str → Except Unit (List RawSuggestion))
    (dbExists : Str → Bool) : Nat × HttpReply :=
  if description = [] then (0, ⟨400, []⟩)
  else
    let s := generate_business_names_API completion jsonLoads dbExists
    if s = [] then (1, ⟨500, []⟩) else (1, ⟨200, s⟩)

/-! ## Spec-side definitions (stated from the spec's words, for comparison
with the pipeline above) -/

/-- Spec-side: keep the first occurrence of each `name` (case-sensitive)
    together with the name it was kept under; `seen` is the list of names
    already kept.  Elements on which `s["name"]` would raise are skipped
    (the claims using this definition assume a well-formed batch). -/
def dedupPairsGo (seen : List Str) : List RawSuggestion → List (Str × RawSuggestion)
  | [] => []
  | s :: rest =>
    match sugName s with
    | .error _ => dedupPairsGo seen rest
    | .ok n =>
      if n ∈ seen then dedupPairsGo seen rest
      else (n, s) :: dedupPairsGo (seen ++ [n]) rest

/-- Spec-side: the batch deduplicated by `name`, first occurrences kept,
    order preserved. -/
def dedupByNameGo (seen : List Str) : List RawSuggestion → List RawSuggestion
  | [] => []
  | s :: rest =>
    match sugName s with
    | .error _ => dedupByNameGo seen rest
    | .ok n =>
      if n ∈ seen then dedupByNameGo seen rest
      else s :: dedupByNameGo (seen ++ [n]) rest

/-- Spec-side: deduplicate a suggestion batch by exact name. -/
def dedupByName (l : List RawSuggestion) : List RawSuggestion := dedupByNameGo [] l

/-- Spec-side (claim C6): the subsequence of suggestions, in original order,
    whose names pass the non-existence check, truncated to the first `cap`
    entries. -/
def specFilterTake (dbExists : Str → Bool) (cap : Nat)
    (l : List RawSuggestion) : List RawSuggestion :=
  (l.filter fun s => !(dbExists ((sugName s).toOption.getD []))).take cap

/-- The name of a suggestion as an `Option`, for stating uniqueness of the
    names of a result batch. -/
def sugNameOpt (s : RawSuggestion) : Option Str := (sugName s).toOption

/-- The raw completion text of the spec's fallback-parser example: a
    numbered entry `1. "Lumina Brew"` with an `explanation:` clause,
    followed by a second numbered entry. -/
def sampleText : Str :=
  ("1. \"Lumina Brew\" explanation: \"Evokes light and warmth for a modern coffee brand\"\n2. \"Bean Haven\" explanation: \"Cozy space centered on the humble coffee bean\"").data

/-- A helper batch: twelve well-formed suggestions with pairwise distinct
    names followed by one element that is not a JSON object. -/
def twelveGoodOneBad : List RawSuggestion :=
  ((List.range 12).map fun i =>
    RawSuggestion.obj [(("name").data, [Char.ofNat (65 + i)])])
    ++ [RawSuggestion.nonObj]

/-- Sample suggestion dict `{"name": "Acme", "description": "one"}`. -/
def acmeOne : RawSuggestion :=
  .obj [(("name").data, ("Acme").data), (("description").data, ("one").data)]

/-- Sample suggestion dict `{"name": "Acme", "description": "two"}` — same
    name as `acmeOne`, different description. -/
def acmeTwo : RawSuggestion :=
  .obj [(("name").data, ("Acme").data), (("description").data, ("two").data)]

/-- Sample suggestion dict `{"name": "Beta", "description": "three"}`. -/
def betaOne : RawSuggestion :=
  .obj [(("name").data, ("Beta").data), (("description").data, ("three").data)]

/-! ## Helper lemmas -/

theorem hasPrefixChars_iff (p l : Str) : hasPrefixChars p l = true ↔ p <+: l := by
  induction p generalizing l with
  | nil => simp [hasPrefixChars]
  | cons a as ih =>
    cases l with
    | nil => simp [hasPrefixChars]
    | cons b bs =>
      simp only [hasPrefixChars, Bool.and_eq_true, decide_eq_true_eq, ih,
        List.cons_prefix_cons]

theorem hasSubstr_iff (needle hay : Str) : hasSubstr needle hay = true ↔ needle <:+: hay := by
  induction hay with
  | nil =>
    simp only [hasSubstr, hasPrefixChars_iff, List.prefix_nil, List.infix_nil]
  | cons c rest ih =>
    simp only [hasSubstr, Bool.or_eq_true, hasPrefixChars_iff, ih,
      List.infix_cons_iff]

theorem hasSubstr_nil (hay : Str) : hasSubstr [] hay = true := by
  cases hay <;> simp [hasSubstr, hasPrefixChars]

theorem tmMatchHit_iff (mn : Str) (m : TMMatch) :
    tmMatchHit mn m = true ↔
      ∃ w, m.wordMark = some w ∧
        (pyLower mn <:+: pyLower (trademarkMainOf w) ∨
         pyLower (trademarkMainOf w) <:+: pyLower mn) := by
  cases hw : m.wordMark with
  | none => simp [tmMatchHit, hw]
  | some w => simp [tmMatchHit, hw, hasSubstr_iff]

theorem pairUp_eq_zip (ns ds : List Str) : pairUp ns ds = ns.zip ds := by
  apply List.ext_getElem
  · simp [pairUp, List.length_zip]
  · intro i h1 h2
    simp only [pairUp, List.length_map, List.length_range] at h1
    simp only [pairUp, List.getElem_map, List.getElem_range, List.getElem_zip]
    have hn : i < ns.length := lt_of_lt_of_le h1 (min_le_left _ _)
    have hd : i < ds.length := lt_of_lt_of_le h1 (min_le_right _ _)
    rw [List.getD_eq_getElem ns [] hn, List.getD_eq_getElem ds [] hd]

theorem dedupPairsGo_map_snd (l : List RawSuggestion) :
    ∀ seen, (dedupPairsGo seen l).map Prod.snd = dedupByNameGo seen l := by
  induction l with
  | nil => intro seen; rfl
  | cons s rest ih =>
    intro seen
    cases hn : sugName s with
    | error e => simp [dedupPairsGo, dedupByNameGo, hn, ih]
    | ok n =>
      by_cases hmem : n ∈ seen <;>
        simp [dedupPairsGo, dedupByNameGo, hn, hmem, ih]

theorem filterMap_sugNameOpt_map_snd (r : List (Str × RawSuggestion))
    (h : ∀ p ∈ r, sugNameOpt p.2 = some p.1) :
    (r.map Prod.snd).filterMap sugNameOpt = r.map Prod.fst := by
  induction r with
  | nil => rfl
  | cons p rest ih =>
    simp only [List.map_cons, List.filterMap_cons, h p (List.mem_cons_self p rest)]
    rw [ih fun q hq => h q (List.mem_cons_of_mem _ hq)]

theorem validateLoopAPI_invariant (db : Str → Bool) (l : List RawSuggestion) :
    ∀ (acc r : List (Str × RawSuggestion)),
      (acc.map Prod.fst).Nodup →
      (∀ p ∈ acc, sugNameOpt p.2 = some p.1) →
      validateLoopAPI db acc l = .ok r →
      (r.map Prod.fst).Nodup ∧ ∀ p ∈ r, sugNameOpt p.2 = some p.1 := by
  induction l with
  | nil =>
    intro acc r h1 h2 h
    cases h
    exact ⟨h1, h2⟩
  | cons s rest ih =>
    intro acc r h1 h2 h
    cases hn : sugName s with
    | error e =>
      simp only [validateLoopAPI, hn] at h
      cases h
    | ok n =>
      simp only [validateLoopAPI, hn] at h
      by_cases hmem : n ∈ acc.map Prod.fst
      · rw [if_pos hmem] at h
        exact ih acc r h1 h2 h
      · rw [if_neg hmem] at h
        by_cases hdb : db n = true
        · rw [if_pos hdb] at h
          exact ih acc r h1 h2 h
        · rw [if_neg hdb] at h
          have h1' : ((acc ++ [(n, s)]).map Prod.fst).Nodup := by
            rw [List.map_append, List.nodup_append]
            refine ⟨h1, List.nodup_singleton _, ?_⟩
            intro a ha hb
            simp only [List.map_singleton, List.mem_singleton] at hb
            subst hb
            exact hmem ha
          have h2' : ∀ p ∈ acc ++ [(n, s)], sugNameOpt p.2 = some p.1 := by
            intro p hp
            rcases List.mem_append.mp hp with hp | hp
            · exact h2 p hp
            · rcases List.mem_singleton.mp hp with rfl
              simp [sugNameOpt, hn, Except.toOption]
          by_cases hlen : (acc ++ [(n, s)]).length = 12
          · rw [if_pos hlen] at h
            cases h
            exact ⟨h1', h2'⟩
          · rw [if_neg hlen] at h
            exact ih (acc ++ [(n, s)]) r h1' h2' h

theorem validateLoopAPI_length (db : Str → Bool) (l : List RawSuggestion) :
    ∀ (acc r : List (Str × RawSuggestion)), acc.length < 12 →
      validateLoopAPI db acc l = .ok r → r.length ≤ 12 := by
  induction l with
  | nil =>
    intro acc r hlt h
    cases h
    omega
  | cons s rest ih =>
    intro acc r hlt h
    cases hn : sugName s with
    | error e =>
      simp only [validateLoopAPI, hn] at h
      cases h
    | ok n =>
      simp only [validateLoopAPI, hn] at h
      by_cases hmem : n ∈ acc.map Prod.fst
      · rw [if_pos hmem] at h
        exact ih acc r hlt h
      · rw [if_neg hmem] at h
        by_cases hdb : db n = true
        · rw [if_pos hdb] at h
          exact ih acc r hlt h
        · rw [if_neg hdb] at h
          by_cases hlen : (acc ++ [(n, s)]).length = 12
          · rw [if_pos hlen] at h
            cases h
            omega
          · rw [if_neg hlen] at h
            refine ih (acc ++ [(n, s)]) r ?_ h
            simp only [List.length_append, List.length_singleton] at hlen ⊢
            omega

theorem validateLoopAPI_sublist (db : Str → Bool) (l : List RawSuggestion) :
    ∀ (acc r : List (Str × RawSuggestion)),
      validateLoopAPI db acc l = .ok r →
      ∃ ps, r = acc ++ ps ∧ List.Sublist (ps.map Prod.snd) l := by
  induction l with
  | nil =>
    intro acc r h
    cases h
    exact ⟨[], by simp, List.nil_sublist _⟩
  | cons s rest ih =>
    intro acc r h
    cases hn : sugName s with
    | error e =>
      simp only [validateLoopAPI, hn] at h
      cases h
    | ok n =>
      simp only [validateLoopAPI, hn] at h
      by_cases hmem : n ∈ acc.map Prod.fst
      · rw [if_pos hmem] at h
        obtain ⟨ps, hr, hsub⟩ := ih acc r h
        exact ⟨ps, hr, hsub.cons s⟩
      · rw [if_neg hmem] at h
        by_cases hdb : db n = true
        · rw [if_pos hdb] at h
          obtain ⟨ps, hr, hsub⟩ := ih acc r h
          exact ⟨ps, hr, hsub.cons s⟩
        · rw [if_neg hdb] at h
          by_cases hlen : (acc ++ [(n, s)]).length = 12
          · rw [if_pos hlen] at h
            cases h
            exact ⟨[(n, s)], rfl, by
              rw [List.map_singleton]
              exact (List.nil_sublist rest).cons₂ s⟩
          · rw [if_neg hlen] at h
            obtain ⟨ps, hr, hsub⟩ := ih (acc ++ [(n, s)]) r h
            refine ⟨(n, s) :: ps, by simpa [List.append_assoc] using hr, ?_⟩
            rw [List.map_cons]
            exact hsub.cons₂ s

theorem validateLoopAPI_noexists (l : List RawSuggestion) :
    ∀ (acc : List (Str × RawSuggestion)), acc.length < 12 →
      (∀ s ∈ l, sugNameOpt s ≠ none) →
      validateLoopAPI (fun _ => false) acc l
        = .ok (acc ++ (dedupPairsGo (acc.map Prod.fst) l).take (12 - acc.length)) := by
  induction l with
  | nil =>
    intro acc hlt hnames
    simp [validateLoopAPI, dedupPairsGo]
  | cons s rest ih =>
    intro acc hlt hnames
    cases hn : sugName s with
    | error e =>
      have := hnames s (List.mem_cons_self s rest)
      simp [sugNameOpt, hn, Except.toOption] at this
    | ok n =>
      have hnames' : ∀ q ∈ rest, sugNameOpt q ≠ none :=
        fun q hq => hnames q (List.mem_cons_of_mem _ hq)
      by_cases hmem : n ∈ acc.map Prod.fst
      · simp only [validateLoopAPI, hn, if_pos hmem, dedupPairsGo]
        exact ih acc hlt hnames'
      · simp only [validateLoopAPI, hn, if_neg hmem, Bool.false_eq_true,
          if_false, dedupPairsGo]
        by_cases hlen : (acc ++ [(n, s)]).length = 12
        · rw [if_pos hlen]
          have h11 : acc.length = 11 := by
            simp only [List.length_append, List.length_singleton] at hlen
            omega
          have hone : 12 - acc.length = 1 := by omega
          rw [hone, List.take_succ_cons, List.take_zero]
        · rw [if_neg hlen]
          have hlt' : (acc ++ [(n, s)]).length < 12 := by
            simp only [List.length_append, List.length_singleton] at hlen ⊢
            omega
          rw [ih (acc ++ [(n, s)]) hlt' hnames']
          have harith : 12 - acc.length = (12 - (acc ++ [(n, s)]).length) + 1 := by
            simp only [List.length_append, List.length_singleton] at hlen ⊢
            omega
          rw [harith, List.take_succ_cons, List.map_append, List.map_singleton,
            List.append_assoc]
          rfl

theorem collectResults_ok (db : Str → Bool) (l : List RawSuggestion)
    (h : ∀ s ∈ l, sugNameOpt s ≠ none) :
    collectResults db l
      = .ok (l.map fun s =>
          if db ((sugName s).toOption.getD []) then none else some s) := by
  induction l with
  | nil => rfl
  | cons s rest ih =>
    cases hn : sugName s with
    | error e =>
      have := h s (List.mem_cons_self s rest)
      simp [sugNameOpt, hn, Except.toOption] at this
    | ok n =>
      have ih' := ih fun q hq => h q (List.mem_cons_of_mem _ hq)
      simp [collectResults, validate_name, hn, ih', Except.toOption]

theorem collectResults_error (db : Str → Bool) (l : List RawSuggestion)
    (h : ∃ s ∈ l, sugNameOpt s = none) :
    collectResults db l = .error () := by
  induction l with
  | nil => simp at h
  | cons s rest ih =>
    rcases h with ⟨q, hq, hqn⟩
    rcases List.mem_cons.mp hq with rfl | hq
    · cases hn : sugName q with
      | error e =>
        cases e
        simp [collectResults, validate_name, hn]
      | ok n => simp [sugNameOpt, hn, Except.toOption] at hqn
    · cases hv : validate_name db s with
      | error e =>
        cases e
        simp [collectResults, hv]
      | ok r =>
        rw [collectResults, hv, ih ⟨q, hq, hqn⟩]

theorem validateLoopAPI_bad (db : Str → Bool) (l : List RawSuggestion) :
    ∀ (acc r : List (Str × RawSuggestion)),
      (∃ s ∈ l, sugNameOpt s = none) →
      validateLoopAPI db acc l = .ok r → r.length = 12 := by
  induction l with
  | nil =>
    intro acc r hbad h
    simp at hbad
  | cons s rest ih =>
    intro acc r hbad h
    cases hn : sugName s with
    | error e =>
      simp only [validateLoopAPI, hn] at h
      cases h
    | ok n =>
      have hbad' : ∃ q ∈ rest, sugNameOpt q = none := by
        rcases hbad with ⟨q, hq, hqn⟩
        rcases List.mem_cons.mp hq with rfl | hq
        · simp [sugNameOpt, hn, Except.toOption] at hqn
        · exact ⟨q, hq, hqn⟩
      simp only [validateLoopAPI, hn] at h
      by_cases hmem : n ∈ acc.map Prod.fst
      · rw [if_pos hmem] at h
        exact ih acc r hbad' h
      · rw [if_neg hmem] at h
        by_cases hdb : db n = true
        · rw [if_pos hdb] at h
          exact ih acc r hbad' h
        · rw [if_neg hdb] at h
          by_cases hlen : (acc ++ [(n, s)]).length = 12
          · rw [if_pos hlen] at h
            cases h
            exact hlen
          · rw [if_neg hlen] at h
            exact ih (acc ++ [(n, s)]) r hbad' h

/-! ## Claim theorems -/

/-- C4: the trademark check returns `true` iff some record among the
    returned top-10 matches has a `wordMark` field whose main part (prefix
    before `' - '` if present, else the whole field) contains the candidate's
    main name (prefix before the first `'-'`, trimmed) case-insensitively,
    or is contained in it case-insensitively; in particular, stored
    word-mark "Zentek Labs" and candidate "Zen" yields `true`. -/
theorem C4_trademark_check_semantics :
    (∀ (name : Str) (ms : List TMMatch),
      check_trademark_index (some (.ok ms)) name = true ↔
        ∃ m ∈ ms, ∃ w, m.wordMark = some w ∧
          (pyLower (mainNameOf name) <:+: pyLower (trademarkMainOf w) ∨
           pyLower (trademarkMainOf w) <:+: pyLower (mainNameOf name))) ∧
    check_trademark_index
        (some (.ok [⟨some ("Zentek Labs").data⟩])) ("Zen").data = true := by
  constructor
  · intro name ms
    simp only [check_trademark_index, List.any_eq_true, tmMatchHit_iff]
  · decide

/-- C7: `name_exists_in_database` never propagates an exception — in both
    variants it equals the logical OR of the primary-index hit and the
    trademark-index hit, and a branch whose remote query raises contributes
    `false`. -/
theorem C7_exists_is_or_and_branch_errors_are_false :
    (∀ (p : PrimaryIdx) (t : TrademarkIdx) (name : Str),
      name_exists_in_database p t name
        = (check_primary_index p name || check_trademark_index t name)) ∧
    (∀ (p : PrimaryIdx) (t : TrademarkIdx) (name : Str),
      name_exists_in_database_app p t name
        = (check_primary_index p name || check_trademark_index t name)) ∧
    (∀ name : Str, check_primary_index (some fun _ => .error ()) name = false) ∧
    (∀ name : Str, check_trademark_index (some (.error ())) name = false) := by
  refine ⟨fun p t name => ?_, fun p t name => rfl, fun name => rfl, fun name => rfl⟩
  unfold name_exists_in_database
  cases check_primary_index p name <;> cases check_trademark_index t name <;> simp

/-- C9: when the candidate's main name (prefix before the first `'-'`,
    trimmed) is empty, the trademark check returns `true` as soon as the
    index is connected and its query returns at least one match carrying a
    `wordMark` field, because the empty string is a substring of every
    word-mark main part. -/
theorem C9_empty_main_name_collides (name : Str) (ms : List TMMatch)
    (m : TMMatch) (w : Str) (h1 : mainNameOf name = [])
    (h2 : m ∈ ms) (h3 : m.wordMark = some w) :
    check_trademark_index (some (.ok ms)) name = true := by
  simp only [check_trademark_index, List.any_eq_true]
  refine ⟨m, h2, ?_⟩
  simp [tmMatchHit, h3, h1, pyLower, hasSubstr_nil]

/-- Witness for C9 at a concrete input: candidate "-Foo" (whose main name is
    empty) collides with a store holding the single word-mark "Zentek Labs". -/
theorem C9_witness :
    mainNameOf ("-Foo").data = [] ∧
    (⟨some ("Zentek Labs").data⟩ : TMMatch) ∈ [(⟨some ("Zentek Labs").data⟩ : TMMatch)] ∧
    (⟨some ("Zentek Labs").data⟩ : TMMatch).wordMark = some ("Zentek Labs").data ∧
    check_trademark_index
      (some (.ok [⟨some ("Zentek Labs").data⟩])) ("-Foo").data = true :=
  ⟨by decide, by decide, by decide,
    C9_empty_main_name_collides (("-Foo").data) _ ⟨some ("Zentek Labs").data⟩
      (("Zentek Labs").data) (by decide) (by decide) (by decide)⟩

/-- C5: the `/generate-names` handler returns 200 with the suggestion list
    exactly when the description is non-empty and generation produced at
    least one suggestion, 400 exactly when the description is empty, and 500
    exactly when the description is non-empty and generation produced
    nothing — which is what happens whenever the model call errors. -/
theorem C5_endpoint_status_mapping :
    ∀ (d : Str) (c : Except Unit Str)
      (j : Str → Except Unit (List RawSuggestion)) (db : Str → Bool),
      ((generate_names d c j db).2.status = 400 ↔ d = []) ∧
      ((generate_names d c j db).2.status = 500 ↔
        d ≠ [] ∧ generate_business_names_API c j db = []) ∧
      ((generate_names d c j db).2.status = 200 ↔
        d ≠ [] ∧ generate_business_names_API c j db ≠ []) ∧
      ((generate_names d c j db).2.status = 200 →
        (generate_names d c j db).2.suggestions
          = generate_business_names_API c j db) ∧
      generate_business_names_API (.error ()) j db = [] := by
  intro d c j db
  have hgen : generate_business_names_API (.error ()) j db = [] := rfl
  unfold generate_names
  by_cases hd : d = [] <;>
    by_cases hs : generate_business_names_API c j db = [] <;>
      simp [hd, hs, hgen]

/-- C2 fails on the code: the endpoint's validation is `if not
    request.description`, which only catches the empty string.  For the
    whitespace-only description " " the completion client is invoked (once),
    and the response is not a 400. -/
theorem C2_counterexample :
    (generate_names (" ").data (.error ()) (fun _ => .error ()) (fun _ => false)).1 = 1 ∧
    (generate_names (" ").data (.error ()) (fun _ => .error ()) (fun _ => false)).2.status
      = 500 := by
  decide

/-- C2 amended: only the empty description is rejected with 400 and zero
    model calls; every non-empty description (whitespace-only included)
    reaches the completion client, which is invoked exactly once. -/
theorem C2_empty_description_rejected_without_model_call :
    (∀ (c : Except Unit Str) (j : Str → Except Unit (List RawSuggestion))
      (db : Str → Bool), generate_names [] c j db = (0, ⟨400, []⟩)) ∧
    (∀ (ch : Char) (d : Str) (c : Except Unit Str)
      (j : Str → Except Unit (List RawSuggestion)) (db : Str → Bool),
      (generate_names (ch :: d) c j db).1 = 1) := by
  constructor
  · intro c j db
    rfl
  · intro ch d c j db
    unfold generate_names
    by_cases hs : generate_business_names_API c j db = [] <;> simp [hs]

/-- Unfolding of the sequential generator when the completion succeeds and
    the JSON parse succeeds (all steps are definitional). -/
theorem generate_API_ok_parse (t : Str) (parsed : List RawSuggestion)
    (db : Str → Bool) :
    generate_business_names_API (.ok t) (fun _ => .ok parsed) db
      = match validateLoopAPI db [] parsed with
        | .ok acc => acc.map Prod.snd
        | .error _ => [] := rfl

/-- Unfolding of the parallel generator when the completion succeeds and
    the JSON parse succeeds (all steps are definitional). -/
theorem generate_app_ok_parse (t : Str) (parsed : List RawSuggestion)
    (db : Str → Bool) :
    generate_business_names_app (.ok t) (fun _ => .ok parsed) db
      = match collectResults db parsed with
        | .error _ => []
        | .ok results => (results.filterMap id).take 12 := rfl

/-- C1 fails as stated: in the parallel Streamlit variant, a parsed batch
    holding two suggestions with the same name "Acme" (and no database
    collisions) is returned with both copies — the variant performs no
    in-batch dedup. -/
theorem C1_counterexample :
    generate_business_names_app (.ok []) (fun _ => .ok [acmeOne, acmeTwo])
        (fun _ => false)
      = [acmeOne, acmeTwo] ∧
    sugNameOpt acmeOne = sugNameOpt acmeTwo ∧ acmeOne ≠ acmeTwo := by
  decide

/-- C1 amended: in the sequential FastAPI variant the accepted result never
    includes two suggestions with the same name (case-sensitive) — the names
    of the result are pairwise distinct for every completion outcome, parse
    outcome and database; the parallel Streamlit variant performs no
    in-batch dedup and can return duplicates. -/
theorem C1_api_result_names_nodup :
    ∀ (c : Except Unit Str) (j : Str → Except Unit (List RawSuggestion))
      (db : Str → Bool),
      ((generate_business_names_API c j db).filterMap sugNameOpt).Nodup := by
  intro c j db
  cases c with
  | error e => exact List.nodup_nil
  | ok text =>
    cases hloop : validateLoopAPI db [] (parsedSuggestions text j) with
    | error e => simp [generate_business_names_API, hloop]
    | ok r =>
      obtain ⟨h1, h2⟩ :=
        validateLoopAPI_invariant db (parsedSuggestions text j) [] r
          List.nodup_nil (by simp) hloop
      simp only [generate_business_names_API, hloop]
      rw [filterMap_sugNameOpt_map_snd r h2]
      exact h1

/-- C3: with both index handles `None`, `name_exists_in_database` returns
    `false` for every name, and the accepted result of the sequential
    pipeline is exactly the parsed batch deduplicated by name and truncated
    to the target count of 12. -/
theorem C3_fail_open (parsed : List RawSuggestion) (t : Str)
    (h : ∀ s ∈ parsed, sugNameOpt s ≠ none) :
    (∀ name : Str, name_exists_in_database none none name = false) ∧
    generate_business_names_API (.ok t) (fun _ => .ok parsed)
        (fun n => name_exists_in_database none none n)
      = (dedupByName parsed).take 12 := by
  refine ⟨fun name => rfl, ?_⟩
  have hdbfun : (fun n : Str => name_exists_in_database none none n)
      = fun _ => false := by
    funext n
    rfl
  rw [hdbfun, generate_API_ok_parse,
    validateLoopAPI_noexists parsed [] (by decide) h]
  show ((dedupPairsGo [] parsed).take 12).map Prod.snd
    = (dedupByName parsed).take 12
  rw [List.map_take, dedupPairsGo_map_snd]
  rfl

/-- Witness for C3 at a concrete batch with one duplicate name. -/
theorem C3_witness :
    (∀ s ∈ [acmeOne, acmeTwo, betaOne], sugNameOpt s ≠ none) ∧
    ((∀ name : Str, name_exists_in_database none none name = false) ∧
      generate_business_names_API (.ok []) (fun _ => .ok [acmeOne, acmeTwo, betaOne])
          (fun n => name_exists_in_database none none n)
        = (dedupByName [acmeOne, acmeTwo, betaOne]).take 12) :=
  ⟨by decide, C3_fail_open [acmeOne, acmeTwo, betaOne] [] (by decide)⟩

theorem filterMap_id_map_ite (db : Str → Bool) (l : List RawSuggestion) :
    ((l.map fun s =>
        if db ((sugName s).toOption.getD []) then none else some s).filterMap id)
      = l.filter fun s => !(db ((sugName s).toOption.getD [])) := by
  induction l with
  | nil => rfl
  | cons s rest ih =>
    by_cases hdb : db ((sugName s).toOption.getD []) = true <;>
      simp [List.filterMap_cons, List.filter_cons, hdb, ih]

/-- C6 fails as stated: in the sequential FastAPI variant the filtering also
    drops later duplicates of an already-accepted name, so on a batch with
    two same-named suggestions that both pass the non-existence check the
    accepted result is not the full passing subsequence. -/
theorem C6_counterexample :
    generate_business_names_API (.ok []) (fun _ => .ok [acmeOne, acmeTwo])
        (fun _ => false)
      = [acmeOne] ∧
    specFilterTake (fun _ => false) 12 [acmeOne, acmeTwo] = [acmeOne, acmeTwo] ∧
    ([acmeOne] : List RawSuggestion) ≠ [acmeOne, acmeTwo] := by
  decide

/-- C6 amended: the parallel Streamlit variant returns exactly the
    subsequence of suggestions, in original order, whose names pass the
    non-existence check, truncated to the first 12; the sequential FastAPI
    variant additionally drops later duplicates by name.  In both variants
    the result has length at most 12 and is a sublist (order-preserving
    selection) of the parsed batch. -/
theorem C6_filtering_postcondition (parsed : List RawSuggestion) (t : Str)
    (db : Str → Bool) (h : ∀ s ∈ parsed, sugNameOpt s ≠ none) :
    generate_business_names_app (.ok t) (fun _ => .ok parsed) db
        = specFilterTake db 12 parsed ∧
    (generate_business_names_app (.ok t) (fun _ => .ok parsed) db).length ≤ 12 ∧
    List.Sublist (generate_business_names_app (.ok t) (fun _ => .ok parsed) db)
      parsed ∧
    (generate_business_names_API (.ok t) (fun _ => .ok parsed) db).length ≤ 12 ∧
    List.Sublist (generate_business_names_API (.ok t) (fun _ => .ok parsed) db)
      parsed := by
  have happ : generate_business_names_app (.ok t) (fun _ => .ok parsed) db
      = specFilterTake db 12 parsed := by
    rw [generate_app_ok_parse, collectResults_ok db parsed h]
    show ((parsed.map fun s =>
        if db ((sugName s).toOption.getD []) then none else some s).filterMap
          id).take 12 = _
    rw [filterMap_id_map_ite]
    rfl
  refine ⟨happ, ?_, ?_, ?_, ?_⟩
  · rw [happ]
    exact List.length_take_le _ _
  · rw [happ]
    exact (List.take_sublist _ _).trans (List.filter_sublist _)
  · rw [generate_API_ok_parse]
    cases hloop : validateLoopAPI db [] parsed with
    | error e => simp
    | ok r =>
      have := validateLoopAPI_length db parsed [] r (by decide) hloop
      simpa using this
  · rw [generate_API_ok_parse]
    cases hloop : validateLoopAPI db [] parsed with
    | error e => simp
    | ok r =>
      obtain ⟨ps, hr, hsub⟩ := validateLoopAPI_sublist db parsed [] r hloop
      rw [List.nil_append] at hr
      subst hr
      simpa using hsub

/-- Witness for C6 at a concrete batch of two distinct names with no
    database collisions. -/
theorem C6_witness :
    (∀ s ∈ [acmeOne, betaOne], sugNameOpt s ≠ none) ∧
    (generate_business_names_app (.ok []) (fun _ => .ok [acmeOne, betaOne])
        (fun _ => false)
      = specFilterTake (fun _ => false) 12 [acmeOne, betaOne] ∧
    (generate_business_names_app (.ok []) (fun _ => .ok [acmeOne, betaOne])
        (fun _ => false)).length ≤ 12 ∧
    List.Sublist (generate_business_names_app (.ok []) (fun _ => .ok [acmeOne, betaOne])
        (fun _ => false)) [acmeOne, betaOne] ∧
    (generate_business_names_API (.ok []) (fun _ => .ok [acmeOne, betaOne])
        (fun _ => false)).length ≤ 12 ∧
    List.Sublist (generate_business_names_API (.ok []) (fun _ => .ok [acmeOne, betaOne])
        (fun _ => false)) [acmeOne, betaOne]) :=
  ⟨by decide,
    C6_filtering_postcondition [acmeOne, betaOne] [] (fun _ => false) (by decide)⟩

/-- C10 fails as stated for the sequential variant: with twelve well-formed,
    pairwise-distinct, non-colliding suggestions before the malformed
    element, the loop breaks at 12 accepted suggestions before ever reaching
    the malformed one, and the twelve are returned rather than the empty
    list. -/
theorem C10_counterexample :
    RawSuggestion.nonObj ∈ twelveGoodOneBad ∧
    sugNameOpt RawSuggestion.nonObj = none ∧
    (generate_business_names_API (.ok []) (fun _ => .ok twelveGoodOneBad)
        (fun _ => false)).length = 12 ∧
    generate_business_names_API (.ok []) (fun _ => .ok twelveGoodOneBad)
        (fun _ => false) ≠ [] := by
  decide

/-- C10 amended: if some element of the parsed batch lacks a `name` key or
    is not an object, the parallel Streamlit variant returns the empty list
    (every suggestion is discarded); the sequential FastAPI variant does so
    too unless it accepts 12 suggestions before reaching the malformed
    element, in which case exactly those 12 are returned. -/
theorem C10_malformed_element_discards_batch (parsed : List RawSuggestion)
    (t : Str) (db : Str → Bool) (h : ∃ s ∈ parsed, sugNameOpt s = none) :
    generate_business_names_app (.ok t) (fun _ => .ok parsed) db = [] ∧
    (generate_business_names_API (.ok t) (fun _ => .ok parsed) db = [] ∨
     (generate_business_names_API (.ok t) (fun _ => .ok parsed) db).length
       = 12) := by
  constructor
  · rw [generate_app_ok_parse, collectResults_error db parsed h]
  · rw [generate_API_ok_parse]
    cases hloop : validateLoopAPI db [] parsed with
    | error e => exact Or.inl rfl
    | ok r =>
      right
      simpa using validateLoopAPI_bad db parsed [] r h hloop

/-- Witness for C10 at a concrete batch consisting of a single non-object
    element. -/
theorem C10_witness :
    (∃ s ∈ [RawSuggestion.nonObj], sugNameOpt s = none) ∧
    (generate_business_names_app (.ok []) (fun _ => .ok [RawSuggestion.nonObj])
        (fun _ => false) = [] ∧
    (generate_business_names_API (.ok []) (fun _ => .ok [RawSuggestion.nonObj])
        (fun _ => false) = [] ∨
     (generate_business_names_API (.ok []) (fun _ => .ok [RawSuggestion.nonObj])
        (fun _ => false)).length = 12)) :=
  ⟨by decide,
    C10_malformed_element_discards_batch [RawSuggestion.nonObj] []
      (fun _ => false) (by decide)⟩

set_option maxRecDepth 100000 in
/-- C8: when JSON parsing fails, the fallback parser pairs the i-th
    extracted name with the i-th extracted description and returns exactly
    `min(count(names), count(descriptions))` pairs, dropping unpaired
    trailing matches; on the spec's example text with two numbered entries
    and two `explanation:` clauses, it extracts exactly the two pairs in
    order. -/
theorem C8_fallback_parser_pairing :
    (∀ text : Str,
      fallbackParse text = (extractNames text).zip (extractDescs text) ∧
      (fallbackParse text).length
        = min (extractNames text).length (extractDescs text).length) ∧
    extractNames sampleText = [("Lumina Brew").data, ("Bean Haven").data] ∧
    extractDescs sampleText
      = [("Evokes light and warmth for a modern coffee brand").data,
         ("Cozy space centered on the humble coffee bean").data] ∧
    fallbackParse sampleText
      = [(("Lumina Brew").data,
          ("Evokes light and warmth for a modern coffee brand").data),
         (("Bean Haven").data,
          ("Cozy space centered on the humble coffee bean").data)] := by
  refine ⟨fun text => ⟨?_, ?_⟩, ?_, ?_, ?_⟩
  · rw [fallbackParse, pairUp_eq_zip]
  · rw [fallbackParse, pairUp_eq_zip, List.length_zip]
  · decide
  · decide
  · decide

/-- Witness instantiating C5 at a concrete non-empty description with a
    failing completion client. -/
theorem C5_witness :
    ((generate_names (("x").data) (.error ()) (fun _ => .error ())
        (fun _ => false)).2.status = 400 ↔ ("x").data = []) ∧
    ((generate_names (("x").data) (.error ()) (fun _ => .error ())
        (fun _ => false)).2.status = 500 ↔
      ("x").data ≠ [] ∧
        generate_business_names_API (.error ()) (fun _ => .error ())
          (fun _ => false) = []) ∧
    ((generate_names (("x").data) (.error ()) (fun _ => .error ())
        (fun _ => false)).2.status = 200 ↔
      ("x").data ≠ [] ∧
        generate_business_names_API (.error ()) (fun _ => .error ())
          (fun _ => false) ≠ []) ∧
    ((generate_names (("x").data) (.error ()) (fun _ => .error ())
        (fun _ => false)).2.status = 200 →
      (generate_names (("x").data) (.error ()) (fun _ => .error ())
          (fun _ => false)).2.suggestions
        = generate_business_names_API (.error ()) (fun _ => .error ())
            (fun _ => false)) ∧
    generate_business_names_API (.error ()) (fun _ => .error ())
      (fun _ => false) = [] :=
  C5_endpoint_status_mapping (("x").data) (.error ()) (fun _ => .error ())
    (fun _ => false)
